import Mathlib

/-!
Verification of the mapillary-js navigation-graph core.

This file gives a shallow embedding, in Lean 4, of the graph construction
engine of the repository: the `Graph` class (tile ingestion, worthiness
promotion, edge caching), the `NewGraph` class (fetch lifecycle) and the
`Spatial.wrap` numeric helper.  JavaScript numbers are modelled as
rationals, JavaScript dictionaries keyed by strings as insertion-ordered
association lists, and the asynchronous promise continuations registered by
`fetch` as explicit completion transition functions.  External collaborators
whose code is not part of the repository (the `latlon-geohash` library, the
`GeoCoords` geodetic projection, the THREE.js rotation arithmetic and the
`EdgeCalculator` family) are held abstract as instance-carried function
records, exactly as the source holds them as instance fields or imports.
-/

set_option autoImplicit false

namespace Mapillary

/-! ## Association lists standing for JavaScript string-keyed objects -/

/-- Insertion-ordered association list lookup: the value of the first entry
whose key matches, mirroring property access on a JavaScript object. -/
def lookupA {β : Type} : List (String × β) → String → Option β
  | [], _ => none
  | (a, b) :: t, k => if a = k then some b else lookupA t k

/-- Insertion-ordered association list update: overwrite the value of an
existing key in place, or append a new entry, mirroring property assignment
on a JavaScript object (and `graphlib` `setNode`). -/
def assocSet {β : Type} : List (String × β) → String → β → List (String × β)
  | [], k, v => [(k, v)]
  | (a, b) :: t, k, v => if a = k then (a, v) :: t else (a, b) :: assocSet t k v

/-- Association list key deletion, mirroring the JavaScript `delete` operator. -/
def removeA {β : Type} (l : List (String × β)) (k : String) : List (String × β) :=
  l.filter (fun p => !(p.1 == k))

/-! ## Spatial (GeometryKit): the `wrap` helper

Translation of `Spatial.wrap`.  The source reads

```
if (max < min) { throw new Error("Invalid arguments: max must be larger than min."); }
let interval = max - min;
while (value > max || value < min) {
  if (value > max) { value = value - interval; }
  else if (value < min) { value = value + interval; }
}
return value;
```

The `while` loop is embedded with an explicit fuel parameter: `wrapGo fuel
value min max` returns `some r` when the loop terminates within `fuel`
iterations and `none` otherwise, so divergence of the source loop is
expressible as `none` for every fuel. -/

/-- One-to-one translation of the `while` loop of `Spatial.wrap`. -/
def wrapGo : ℕ → ℚ → ℚ → ℚ → Option ℚ
  | 0, _, _, _ => none
  | fuel + 1, value, mn, mx =>
    if value > mx ∨ value < mn then
      if value > mx then wrapGo fuel (value - (mx - mn)) mn mx
      else wrapGo fuel (value + (mx - mn)) mn mx
    else some value

/-- `Spatial.wrap`: raises exactly when `max < min` (the source's guard),
otherwise runs the wrapping loop.  The error string is the source's message. -/
def wrap (fuel : ℕ) (value mn mx : ℚ) : Except String (Option ℚ) :=
  if mx < mn then Except.error "Invalid arguments: max must be larger than min."
  else Except.ok (wrapGo fuel value mn mx)

/-! ## Data model -/

/-- Geodetic coordinate pair, as in `ILatLon`. -/
structure ILatLon where
  lat : ℚ
  lon : ℚ
deriving DecidableEq, Repr

/-- Local East-North-Up point: the three entries of the `number[]` triple
returned by `GeoCoords.geodeticToEnu`. -/
structure EnuPoint where
  x : ℚ
  y : ℚ
  z : ℚ
deriving DecidableEq, Repr

/-- Modelled from the spec: `geodeticToLocalFrame` converts a geodetic point
to East-North-Up meters relative to an origin point.  The `GeoCoords` class
itself is not part of the analyzed sources, so the projection is held
abstract as a function field, exactly how `Graph` holds `this._geoCoords`. -/
structure GeoCoords where
  geodeticToEnu : ℚ → ℚ → ℚ → ℚ → ℚ → ℚ → EnuPoint

/-- Tile bounds returned by `geohash.bounds`: south-west and north-east corners. -/
structure IBounds where
  sw : ILatLon
  ne : ILatLon
deriving DecidableEq, Repr

/-- The 8-compass-direction neighbour tiles returned by `geohash.neighbours`,
with the field names of `GeoHashDirections`. -/
structure GeohashNeighbours where
  n : String
  nw : String
  w : String
  sw : String
  s : String
  se : String
  e : String
  ne : String
deriving DecidableEq, Repr

/-- Modelled from the spec: tile identifiers are fixed-precision geohash
strings and neighbour resolution uses the standard 8-direction geohash
neighbour function.  The `latlon-geohash` library is external to the
repository, so its two functions used by `Graph.addNodesFromAPI` are held
abstract. -/
structure GeohashLib where
  bounds : String → IBounds
  neighbours : String → GeohashNeighbours

/-- Edge payload.  The graph code inspects only the `direction` tag (an
`EdgeDirection` enumeration value, used in `nextKey` and in the `graphlib`
edge name); the geometric feature set of the spec is carried opaquely as
`features`. -/
structure IEdgeData where
  direction : ℤ
  features : List ℚ
deriving DecidableEq, Repr

/-- An edge as returned by `Graph.getEdges` and produced by the edge
calculator: `{data, from, to}` in the source (`from` is a reserved word in
Lean, hence `fromKey`). -/
structure IEdge where
  fromKey : String
  toKey : String
  data : IEdgeData
deriving DecidableEq, Repr

/-- A stored `graphlib` multigraph edge: endpoints `v`, `w`, the
disambiguating edge `name` and the payload. -/
structure GEdge where
  v : String
  w : String
  name : String
  data : IEdgeData
deriving DecidableEq, Repr

/-- Modelled from the spec: an unclassified candidate carrying the geometric
feature set; it exists only during edge computation.  Held opaque. -/
structure IPotentialEdge where
  key : String
  features : List ℚ
deriving DecidableEq, Repr

/-- A capture sequence: its key and the ordered list of member node keys. -/
structure Sequence where
  key : String
  keys : List String
deriving DecidableEq, Repr

/-- Image item of a tile payload (`IAPINavImIm`): raw latitude/longitude and
compass angle, the optional corrected overrides (`clat`/`clon`/`cca`), the
optional altitude, rotation vector and EXIF orientation. -/
structure IAPINavImIm where
  key : String
  lat : ℚ
  lon : ℚ
  ca : ℚ
  clat : Option ℚ
  clon : Option ℚ
  cca : Option ℚ
  calt : Option ℚ
  rotation : Option (List ℚ)
  orientation : Option ℤ
deriving DecidableEq, Repr

/-- Sequence item of a tile payload: sequence key and member keys. -/
structure IAPINavImS where
  key : String
  keys : List String
deriving DecidableEq, Repr

/-- A tile payload (`IAPINavIm`): the geohashes it covers, its sequences
and its images. -/
structure IAPINavIm where
  hs : List String
  ss : List IAPINavImS
  ims : List IAPINavImIm
deriving DecidableEq, Repr

/-- Modelled from the spec: the `Node` record as constructed by
`Graph.addNodesFromAPI` via `new Node(ca, latLon, false, sequence, im, hs)`
(the `Node` class itself is not among the analyzed sources).  The third
constructor argument is the worthy flag; `hs` is the computed tile coverage
set.  The cached outgoing edge list lives on the graph state
(`Graph.cachedEdges`), mirroring the mutable `node.edges` property of the
shared node object. -/
structure Node where
  ca : ℚ
  latLon : ILatLon
  worthy : Bool
  sequence : Option Sequence
  apiNavImIm : IAPINavImIm
  hs : List String
deriving DecidableEq, Repr

/-- A node's key is its image key. -/
def Node.key (n : Node) : String := n.apiNavImIm.key

/-- `node.makeWorthy()`: sets the worthy flag. -/
def Node.makeWorthy (n : Node) : Node := { n with worthy := true }

/-- Stepping helper: the element preceding `k` in a key list. -/
def prevInList : List String → String → Option String
  | a :: b :: rest, k => if b = k then some a else prevInList (b :: rest) k
  | _, _ => none

/-- Stepping helper: the element following `k` in a key list. -/
def nextInList : List String → String → Option String
  | a :: b :: rest, k => if a = k then some b else nextInList (b :: rest) k
  | _, _ => none

/-- Modelled from the spec: the key before this node's key in its sequence's
ordered member list (`node.findPrevKeyInSequence`). -/
def Node.findPrevKeyInSequence (n : Node) : Option String :=
  match n.sequence with
  | none => none
  | some s => prevInList s.keys n.key

/-- Modelled from the spec: the key after this node's key in its sequence's
ordered member list (`node.findNextKeyInSequence`). -/
def Node.findNextKeyInSequence (n : Node) : Option String :=
  match n.sequence with
  | none => none
  | some s => nextInList s.keys n.key

/-- Modelled from the spec: the `EdgeCalculator` is a deterministic,
side-effect-free function family (`computeSequenceEdges`, `getPotentialEdges`,
`computeStepEdges`, `computeTurnEdges`, `computePanoEdges`,
`computePerspectiveToPanoEdges`, `computeSimilarEdges`).  Its sources are not
among the analyzed files, so the family is held abstract as a record of pure
functions with the call shapes used by `Graph._computeEdges`. -/
structure EdgeCalculator where
  computeSequenceEdges : Node → List IEdge
  getPotentialEdges : Node → List Node → List String → List IPotentialEdge
  computeStepEdges : Node → List IPotentialEdge → Option String → Option String → List IEdge
  computeTurnEdges : Node → List IPotentialEdge → List IEdge
  computePanoEdges : Node → List IPotentialEdge → List IEdge
  computePerspectiveToPanoEdges : Node → List IPotentialEdge → List IEdge
  computeSimilarEdges : Node → List IPotentialEdge → List IEdge

/-- Entry of the rbush spatial index: the degenerate point box
`[lon, lat, lon, lat]` plus the indexed node.  The source item holds the node
object itself, which is the very object stored in the graph; the embedding
holds its key and resolves through the graph's node table. -/
structure ISpatialItem where
  lat : ℚ
  lon : ℚ
  key : String
deriving DecidableEq, Repr

/-- The `Graph` class state: sequences and per-sequence member hash,
`graphlib` node table and edge list, rbush spatial index, the unworthy-node
tracking object, the per-node cached edge lists, and the instance-held
collaborators. -/
@[ext]
structure Graph where
  sequences : List (String × Sequence)
  sequenceHashes : List (String × List (String × Sequence))
  nodes : List (String × Node)
  edges : List GEdge
  nodeIndex : List ISpatialItem
  unWorthyNodes : List (String × Bool)
  cachedEdges : List (String × List IEdge)
  edgeCalculator : EdgeCalculator
  geoCoords : GeoCoords
  geohashLib : GeohashLib
  computeRotationFn : ℚ → Option ℤ → List ℚ

/-- `Graph._boxWidth`. -/
def boxWidth : ℚ := 1 / 1000

/-- `Graph._defaultAlt`. -/
def defaultAlt : ℚ := 2

/-- `Graph.getNode`: `graphlib` node lookup. -/
def Graph.getNode (g : Graph) (key : String) : Option Node :=
  lookupA g.nodes key

/-- `graphlib` `outEdges`: the stored edges leaving `key`. -/
def Graph.outEdges (g : Graph) (key : String) : List GEdge :=
  g.edges.filter (fun e => e.v == key)

/-- `Graph.getEdges`: the node's outgoing edges as `{data, from, to}`. -/
def Graph.getEdges (g : Graph) (node : Node) : List IEdge :=
  (g.outEdges node.key).map (fun e => { fromKey := e.v, toKey := e.w, data := e.data })

/-- `Graph.nextKey`: destination of the first outgoing edge whose direction
tag matches. -/
def Graph.nextKey (g : Graph) (node : Node) (dir : ℤ) : Option String :=
  ((g.outEdges node.key).find? (fun e => e.data.direction == dir)).map (fun e => e.w)

/-- rbush `search` over the degenerate point boxes followed by the
`item.node` projection, resolved through the graph's node table. -/
def Graph.searchNodes (g : Graph) (minX minY maxX maxY : ℚ) : List Node :=
  (g.nodeIndex.filter (fun it =>
      decide (minX ≤ it.lon) && decide (it.lon ≤ maxX)
        && decide (minY ≤ it.lat) && decide (it.lat ≤ maxY))).filterMap
    (fun it => lookupA g.nodes it.key)

/-- Conditional tile inclusion: one `hs.push(...)` of `Graph._computeHs`. -/
def optTile (c : Bool) (tile : String) : List String :=
  if c then [tile] else []

/-- The four boundary proximity flags of `Graph._computeHs`: `l`, `r`, `b`,
`t` are the source's local booleans for left/right/bottom/top distances
below the 20-meter threshold, computed in the local ENU frame anchored at
the tile's south-west corner. -/
structure ProximityFlags where
  l : Bool
  r : Bool
  b : Bool
  t : Bool
deriving DecidableEq, Repr

/-- The local-variable prefix of `Graph._computeHs` (`bl`, `tr`, `position`,
the four distances and the four comparisons), lifted to a definition. -/
def tileProximity (gc : GeoCoords) (latLon : ILatLon) (sw ne : ILatLon) : ProximityFlags :=
  let bl : EnuPoint := ⟨0, 0, 0⟩
  let tr := gc.geodeticToEnu ne.lat ne.lon 0 sw.lat sw.lon 0
  let position := gc.geodeticToEnu latLon.lat latLon.lon 0 sw.lat sw.lon 0
  let left := position.x - bl.x
  let right := tr.x - position.x
  let bottom := position.y - bl.y
  let top := tr.y - position.y
  { l := decide (left < 20), r := decide (right < 20),
    b := decide (bottom < 20), t := decide (top < 20) }

/-- `Graph._computeHs`: the home tile, then the neighbour pushes guarded by
the four 20-meter boundary proximity flags, in source push order
(n, nw, w, sw, s, se, e, ne). -/
def computeHs (gc : GeoCoords) (latLon : ILatLon) (sw ne : ILatLon) (h : String)
    (neighbours : GeohashNeighbours) : List String :=
  let f := tileProximity gc latLon sw ne
  [h] ++ optTile f.t neighbours.n ++ optTile (f.t && f.l) neighbours.nw
      ++ optTile f.l neighbours.w ++ optTile (f.l && f.b) neighbours.sw
      ++ optTile f.b neighbours.s ++ optTile (f.b && f.r) neighbours.se
      ++ optTile f.r neighbours.e ++ optTile (f.r && f.t) neighbours.ne

/-- The edge-list expression of `Graph._computeEdges` for a worthy node:
sequence edges first, then step, turn, pano, perspective-to-pano and similar
edges over the potential edges of the spatial box query, concatenated in
source order. -/
def Graph.computeMainEdges (g : Graph) (node : Node) : List IEdge :=
  let edges := g.edgeCalculator.computeSequenceEdges node
  let fallbackKeys := edges.map (fun e => e.toKey)
  let minLon := node.latLon.lon - boxWidth / 2
  let minLat := node.latLon.lat - boxWidth / 2
  let maxLon := node.latLon.lon + boxWidth / 2
  let maxLat := node.latLon.lat + boxWidth / 2
  let nodes := g.searchNodes minLon minLat maxLon maxLat
  let potentialEdges := g.edgeCalculator.getPotentialEdges node nodes fallbackKeys
  let edges := edges ++ g.edgeCalculator.computeStepEdges node potentialEdges
      node.findPrevKeyInSequence node.findNextKeyInSequence
  let edges := edges ++ g.edgeCalculator.computeTurnEdges node potentialEdges
  let edges := edges ++ g.edgeCalculator.computePanoEdges node potentialEdges
  let edges := edges ++ g.edgeCalculator.computePerspectiveToPanoEdges node potentialEdges
  let edges := edges ++ g.edgeCalculator.computeSimilarEdges node potentialEdges
  edges

/-- Whether a stored edge is the one identified by `(v, w, name)`: the
`graphlib` multigraph edge identity. -/
def edgeMatches (e : GEdge) (v w name : String) : Bool :=
  e.v == v && e.w == w && e.name == name

/-- `graphlib` `removeEdge(edgeObj)`: drop the stored edges with that identity. -/
def removeMatches (es : List GEdge) (o : GEdge) : List GEdge :=
  es.filter (fun e => !(edgeMatches e o.v o.w o.name))

/-- `graphlib` `setEdge(v, w, data, name)`: overwrite the payload of the
existing `(v, w, name)` edge in place, or append a new edge. -/
def setEdgeL (es : List GEdge) (v w name : String) (data : IEdgeData) : List GEdge :=
  if es.any (fun e => edgeMatches e v w name) then
    es.map (fun e => if edgeMatches e v w name then { e with data := data } else e)
  else es ++ [{ v := v, w := w, name := name, data := data }]

/-- The `graphlib` edge name used by `Graph._addEdgesToNode`:
`node.key + edge.toKey + edge.data.direction` (JavaScript string concatenation). -/
def edgeName (v toKey : String) (data : IEdgeData) : String :=
  v ++ toKey ++ toString data.direction

/-- `Graph._addEdgesToNode`: remove every outgoing edge of the node, then set
an edge per computed edge. -/
def Graph.addEdgesToNode (g : Graph) (node : Node) (edges : List IEdge) : Graph :=
  let out := g.outEdges node.key
  let removed := out.foldl removeMatches g.edges
  let added := edges.foldl
    (fun es e => setEdgeL es node.key e.toKey (edgeName node.key e.toKey e.data) e.data) removed
  { g with edges := added }

/-- `Graph._computeEdges`: returns false for an unworthy node; for a worthy
node computes the full edge list and replaces the node's outgoing edges. -/
def Graph.computeEdgesB (g : Graph) (node : Node) : Bool × Graph :=
  if node.worthy then (true, g.addEdgesToNode node (g.computeMainEdges node))
  else (false, g)

/-- `Graph.cacheNode`: when `_computeEdges` succeeded, store the node's
current outgoing edges as its cached edges (`node.cacheEdges(this.getEdges(node))`). -/
def Graph.cacheNode (g : Graph) (node : Node) : Graph :=
  let r := g.computeEdgesB node
  if r.1 then
    { r.2 with cachedEdges := assocSet r.2.cachedEdges node.key (r.2.getEdges node) }
  else r.2

/-- `Graph._insertNode`: a no-op when the key is already present, otherwise
insert into the spatial index and the `graphlib` node table. -/
def Graph.insertNode (g : Graph) (node : Node) : Graph :=
  match g.getNode node.key with
  | some _ => g
  | none =>
    { g with
        nodeIndex := g.nodeIndex ++ [{ lat := node.latLon.lat, lon := node.latLon.lon, key := node.key }],
        nodes := assocSet g.nodes node.key node }

/-- `Graph._insertNodes`: insert each node in order. -/
def Graph.insertNodes (g : Graph) (nodes : List Node) : Graph :=
  nodes.foldl Graph.insertNode g

/-- One iteration of the `for (let key in this._unWorthyNodes)` loop of
`Graph._makeNodesWorthy`: a key whose tracked value is not `true` is only
queued for removal; otherwise the node is promoted exactly when every tile
of its coverage set is loaded.  A tracked key absent from the node table is
skipped: the source dereferences the node unconditionally, which never fails
in program runs because every tracked key was inserted. -/
def worthyStep (tiles : String → Bool) (acc : Graph × List String) (key : String) :
    Graph × List String :=
  let g := acc.1
  match lookupA g.unWorthyNodes key with
  | some true =>
    match g.getNode key with
    | some node =>
      if node.hs.all (fun h => tiles h) then
        ({ g with
            nodes := assocSet g.nodes key node.makeWorthy,
            unWorthyNodes := assocSet g.unWorthyNodes key false },
         acc.2 ++ [key])
      else acc
    | none => acc
  | _ => (g, acc.2 ++ [key])

/-- `Graph._makeNodesWorthy`: iterate the tracked keys, promote the fully
covered nodes, then delete every queued key from the tracking object. -/
def Graph.makeNodesWorthy (g : Graph) (tiles : String → Bool) : Graph :=
  let res := (g.unWorthyNodes.map Prod.fst).foldl (worthyStep tiles) (g, [])
  { res.1 with unWorthyNodes := res.2.foldl removeA res.1.unWorthyNodes }

/-- The sequence parsing loop of `Graph.addNodesFromAPI`: reuse an existing
sequence's member hash, or create the sequence and its hash and record both. -/
def seqStep (acc : Graph × List (List (String × Sequence))) (s : IAPINavImS) :
    Graph × List (List (String × Sequence)) :=
  let g := acc.1
  match lookupA g.sequences s.key with
  | some _ => (g, acc.2 ++ [(lookupA g.sequenceHashes s.key).getD []])
  | none =>
    let sequence : Sequence := { key := s.key, keys := s.keys }
    let sequenceHash := s.keys.map (fun k => (k, sequence))
    ({ g with
        sequences := assocSet g.sequences s.key sequence,
        sequenceHashes := assocSet g.sequenceHashes s.key sequenceHash },
     acc.2 ++ [sequenceHash])

/-- The sequence membership lookup of `Graph.addNodesFromAPI`: the first of
the tile's sequence hashes containing the image key. -/
def findSequenceIn : List (List (String × Sequence)) → String → Option Sequence
  | [], _ => none
  | ts :: rest, key =>
    match lookupA ts key with
    | some s => some s
    | none => findSequenceIn rest key

/-- The node construction step of `Graph.addNodesFromAPI` for one image:
corrected position/compass overrides, altitude default, rotation derivation
when absent, tile coverage computation, sequence association, and marking the
key unworthy. -/
def imStep (bounds : IBounds) (h : String) (nbrs : GeohashNeighbours)
    (hSeqHashes : List (List (String × Sequence)))
    (acc : Graph × List Node) (im : IAPINavImIm) : Graph × List Node :=
  let g := acc.1
  let lat := im.clat.getD im.lat
  let lon := im.clon.getD im.lon
  let ca := im.cca.getD im.ca
  let im1 := { im with calt := some (im.calt.getD defaultAlt) }
  let latLon : ILatLon := { lat := lat, lon := lon }
  let im2 := { im1 with rotation := some (im1.rotation.getD (g.computeRotationFn im.ca im.orientation)) }
  let hs := computeHs g.geoCoords latLon bounds.sw bounds.ne h nbrs
  let sequence := findSequenceIn hSeqHashes im.key
  let node : Node :=
    { ca := ca, latLon := latLon, worthy := false, sequence := sequence,
      apiNavImIm := im2, hs := hs }
  ({ g with unWorthyNodes := assocSet g.unWorthyNodes im.key true }, acc.2 ++ [node])

/-- The ingestion phase of `Graph.addNodesFromAPI` up to and including
`_insertNodes`: tile geometry resolution, sequence parsing, node
construction with unworthy marking, and insertion. -/
def Graph.ingestNodes (g : Graph) (d : IAPINavIm) : Graph :=
  let h := d.hs.headD ""
  let bounds := g.geohashLib.bounds h
  let nbrs := g.geohashLib.neighbours h
  let sres := d.ss.foldl seqStep (g, [])
  let nres := d.ims.foldl (imStep bounds h nbrs sres.2) (sres.1, [])
  nres.1.insertNodes nres.2

/-- `Graph.addNodesFromAPI`: returns immediately on an `undefined` payload,
otherwise ingests and then promotes. -/
def Graph.addNodesFromAPI (g : Graph) (data : Option IAPINavIm) (tiles : String → Bool) : Graph :=
  match data with
  | none => g
  | some d => (g.ingestNodes d).makeNodesWorthy tiles

/-- `Graph.addNodesFromAPI` paired with the change notifications it emits.
The `Graph` class owns no change-notification subject and the method performs
no emission (the `changed$` stream belongs to `NewGraph` and is fed only by
its fetch/fill completions), so the translated operation's event list is
empty. -/
def Graph.addNodesFromAPIWithEvents (g : Graph) (data : Option IAPINavIm)
    (tiles : String → Bool) : Graph × List Graph :=
  (g.addNodesFromAPI data tiles, [])

/-! ## NewGraph: fetch lifecycle -/

/-- Modelled from the spec: the full/fill node detail payload delivered by
the API (`imageByKey` responses); only its key is inspected by the graph
logic under verification. -/
structure NodeData where
  key : String
deriving DecidableEq, Repr

/-- Modelled from the spec: the `NewNode` record (class source not among the
analyzed files): its key and the supplemental detail installed by `makeFull`,
`null` until then (`node.fill`). -/
structure NewNode where
  key : String
  fill : Option NodeData
deriving DecidableEq, Repr

/-- `node.makeFull(data)`: install the detail payload. -/
def NewNode.makeFull (n : NewNode) (d : NodeData) : NewNode :=
  { n with fill := some d }

/-- The `NewGraph` class state: the `graphlib` node table, the `_fetching`
and `_filling` dictionaries (key lists: every stored value is `true`), and
the keys of issued `imageByKeyFull` requests that have not settled.  The
source registers only a fulfillment continuation on those requests. -/
structure NewGraph where
  nodes : List (String × NewNode)
  fetchingKeys : List String
  fillingKeys : List String
  pendingFetches : List String
deriving DecidableEq, Repr

/-- `NewGraph.hasNode`. -/
def NewGraph.hasNode (g : NewGraph) (key : String) : Bool :=
  (lookupA g.nodes key).isSome

/-- `NewGraph.getNode`. -/
def NewGraph.getNode (g : NewGraph) (key : String) : Option NewNode :=
  lookupA g.nodes key

/-- `NewGraph.fetching`: `key in this._fetching`. -/
def NewGraph.fetching (g : NewGraph) (key : String) : Bool :=
  g.fetchingKeys.contains key

/-- `NewGraph.filling`: `key in this._filling`. -/
def NewGraph.filling (g : NewGraph) (key : String) : Bool :=
  g.fillingKeys.contains key

/-- The synchronous part of `NewGraph.fetch`: the two precondition guards
(already fetching, node already in graph) with the source's error messages;
on success the key is marked fetching and the `imageByKeyFull` request is
issued. -/
def NewGraph.fetch (g : NewGraph) (key : String) : Except String NewGraph :=
  if g.fetching key then
    Except.error ("Already fetching (" ++ key ++ ").")
  else if g.hasNode key then
    Except.error ("Cannot fetch node that already exist in graph (" ++ key ++ ").")
  else
    Except.ok
      { g with
          fetchingKeys := g.fetchingKeys ++ [key],
          pendingFetches := g.pendingFetches ++ [key] }

/-- The fulfillment continuation registered by `NewGraph.fetch`: build the
node from the full payload, `makeFull` it, store it, clear the fetching
state, and emit one change notification carrying the updated graph. -/
def NewGraph.fetchFulfilled (g : NewGraph) (key : String) (fn : NodeData) :
    NewGraph × List NewGraph :=
  let node0 : NewNode := { key := fn.key, fill := none }
  let node := node0.makeFull fn
  let g' :=
    { g with
        nodes := assocSet g.nodes node.key node,
        fetchingKeys := g.fetchingKeys.filter (fun k => !(k == key)),
        pendingFetches := g.pendingFetches.filter (fun k => !(k == key)) }
  (g', [g'])

/-- Rejection of the `imageByKeyFull` request issued by `NewGraph.fetch`.
The source attaches only a fulfillment callback (`.then` with a single
argument) and no rejection handler, so a failed request settles the pending
promise but changes no graph state — in particular the `_fetching` entry is
not deleted — and emits nothing. -/
def NewGraph.fetchRejected (g : NewGraph) (key : String) : NewGraph × List NewGraph :=
  ({ g with pendingFetches := g.pendingFetches.filter (fun k => !(k == key)) }, [])

/-! ## Concrete instances for closed evaluations -/

/-- Edge calculator producing no edges at all: a concrete inhabitant for
closed evaluations. -/
def trivialCalc : EdgeCalculator :=
  { computeSequenceEdges := fun _ => []
    getPotentialEdges := fun _ _ _ => []
    computeStepEdges := fun _ _ _ _ => []
    computeTurnEdges := fun _ _ => []
    computePanoEdges := fun _ _ => []
    computePerspectiveToPanoEdges := fun _ _ => []
    computeSimilarEdges := fun _ _ => [] }

/-- Projection collapsing everything to the local origin: a concrete
inhabitant for closed evaluations. -/
def originGeo : GeoCoords :=
  { geodeticToEnu := fun _ _ _ _ _ _ => ⟨0, 0, 0⟩ }

/-- Constant geohash library with distinct neighbour names: a concrete
inhabitant for closed evaluations. -/
def constHashLib : GeohashLib :=
  { bounds := fun _ => { sw := ⟨0, 0⟩, ne := ⟨0, 0⟩ }
    neighbours := fun _ => ⟨"tn", "tnw", "tw", "tsw", "ts", "tse", "te", "tne"⟩ }

/-- The freshly constructed `Graph` instance. -/
def emptyGraph : Graph :=
  { sequences := []
    sequenceHashes := []
    nodes := []
    edges := []
    nodeIndex := []
    unWorthyNodes := []
    cachedEdges := []
    edgeCalculator := trivialCalc
    geoCoords := originGeo
    geohashLib := constHashLib
    computeRotationFn := fun _ _ => [] }

/-- The freshly constructed `NewGraph` instance. -/
def emptyNewGraph : NewGraph :=
  { nodes := [], fetchingKeys := [], fillingKeys := [], pendingFetches := [] }

/-- The node value produced by ingesting `payloadA` into the fresh graph:
altitude defaulted, rotation derived (empty under the trivial rotation
function), full coverage because the constant projection puts the node on
the tile corner. -/
def ingestedA : Node :=
  { ca := 0, latLon := ⟨0, 0⟩, worthy := false, sequence := none,
    apiNavImIm :=
      { key := "a", lat := 0, lon := 0, ca := 0, clat := none, clon := none,
        cca := none, calt := some 2, rotation := some [], orientation := none },
    hs := ["t0", "tn", "tnw", "tw", "tsw", "ts", "tse", "te", "tne"] }

/-- A worthy node keyed "a", for closed evaluations. -/
def worthyNodeA : Node :=
  { ca := 0, latLon := ⟨0, 0⟩, worthy := true, sequence := none,
    apiNavImIm :=
      { key := "a", lat := 0, lon := 0, ca := 0, clat := none, clon := none,
        cca := none, calt := none, rotation := none, orientation := none },
    hs := ["t0"] }

/-- A concrete home tile identifier, for closed evaluations. -/
def h0 : String := "t0"

/-- A concrete neighbour record with pairwise distinct identifiers, for
closed evaluations. -/
def nbrs0 : GeohashNeighbours :=
  ⟨"tn", "tnw", "tw", "tsw", "ts", "tse", "te", "tne"⟩

/-- Image item with only a key, for closed evaluations. -/
def plainIm (k : String) : IAPINavImIm :=
  { key := k, lat := 0, lon := 0, ca := 0, clat := none, clon := none,
    cca := none, calt := none, rotation := none, orientation := none }

/-- Node value with only a key, for closed evaluations. -/
def plainNode (k : String) : Node :=
  { ca := 0, latLon := ⟨0, 0⟩, worthy := false, sequence := none,
    apiNavImIm := plainIm k, hs := [] }

/-- A graph already holding the node keyed "a", for closed evaluations. -/
def graphWithA : Graph := { emptyGraph with nodes := [("a", plainNode "a")] }

/-- One-image tile payload, for closed evaluations. -/
def payloadA : IAPINavIm := { hs := ["t0"], ss := [], ims := [plainIm "a"] }

/-- The `NewGraph` state after a successful `fetch("a")` on the fresh
instance: the key is marked fetching and its request is in flight. -/
def fetchedA : NewGraph :=
  { nodes := [], fetchingKeys := ["a"], fillingKeys := [], pendingFetches := ["a"] }

/-! # Theorems -/

theorem lookupA_assocSet_self {β : Type} (l : List (String × β)) (k : String) (v : β) :
    lookupA (assocSet l k v) k = some v := by
  induction l with
  | nil => simp [assocSet, lookupA]
  | cons p t ih =>
    by_cases h : p.1 = k
    · simp [assocSet, lookupA, h]
    · simp [assocSet, lookupA, h, ih]

theorem lookupA_assocSet_ne {β : Type} (l : List (String × β)) (k k' : String) (v : β)
    (h : k ≠ k') : lookupA (assocSet l k v) k' = lookupA l k' := by
  induction l with
  | nil => simp [assocSet, lookupA, h]
  | cons p t ih =>
    by_cases hp : p.1 = k
    · simp [assocSet, lookupA, hp, h]
    · simp [assocSet, lookupA, hp, ih]

theorem assocSet_assocSet_self {β : Type} (l : List (String × β)) (k : String) (v : β) :
    assocSet (assocSet l k v) k v = assocSet l k v := by
  induction l with
  | nil => simp [assocSet]
  | cons p t ih =>
    by_cases hp : p.1 = k
    · simp [assocSet, hp]
    · simp [assocSet, hp, ih]

theorem wrapGo_succ (fuel : ℕ) (value mn mx : ℚ) :
    wrapGo (fuel + 1) value mn mx =
      if value > mx ∨ value < mn then
        if value > mx then wrapGo fuel (value - (mx - mn)) mn mx
        else wrapGo fuel (value + (mx - mn)) mn mx
      else some value := rfl

theorem wrapGo_in_range (mn mx : ℚ) (hlt : mn < mx) :
    ∀ (n : ℕ) (value : ℚ),
      mn - n * (mx - mn) ≤ value → value ≤ mx + n * (mx - mn) →
      ∃ r, wrapGo (n + 1) value mn mx = some r ∧ mn ≤ r ∧ r ≤ mx := by
  have hi : (0 : ℚ) < mx - mn := by linarith
  intro n
  induction n with
  | zero =>
    intro value hlo hhi
    push_cast at hlo hhi
    have h1 : ¬(value > mx ∨ value < mn) := by
      push_neg
      exact ⟨by linarith, by linarith⟩
    exact ⟨value, by rw [wrapGo_succ, if_neg h1], by linarith, by linarith⟩
  | succ n ih =>
    intro value hlo hhi
    push_cast at hlo hhi
    by_cases hgt : value > mx
    · have hcond : value > mx ∨ value < mn := Or.inl hgt
      have hstep : wrapGo (n + 1 + 1) value mn mx = wrapGo (n + 1) (value - (mx - mn)) mn mx := by
        rw [wrapGo_succ, if_pos hcond, if_pos hgt]
      obtain ⟨r, hr, hr1, hr2⟩ := ih (value - (mx - mn)) (by
          have hnn : (0 : ℚ) ≤ (n : ℚ) * (mx - mn) := by positivity
          linarith) (by linarith)
      exact ⟨r, hstep ▸ hr, hr1, hr2⟩
    · by_cases hlt' : value < mn
      · have hcond : value > mx ∨ value < mn := Or.inr hlt'
        have hstep : wrapGo (n + 1 + 1) value mn mx = wrapGo (n + 1) (value + (mx - mn)) mn mx := by
          rw [wrapGo_succ, if_pos hcond, if_neg hgt]
        obtain ⟨r, hr, hr1, hr2⟩ := ih (value + (mx - mn)) (by linarith) (by
            have hnn : (0 : ℚ) ≤ (n : ℚ) * (mx - mn) := by positivity
            linarith)
        exact ⟨r, hstep ▸ hr, hr1, hr2⟩
      · have h1 : ¬(value > mx ∨ value < mn) := by
          push_neg
          exact ⟨by linarith, by linarith⟩
        exact ⟨value, by rw [wrapGo_succ, if_neg h1], by linarith, by linarith⟩

theorem mem_optTile (c : Bool) (tile x : String) :
    x ∈ optTile c tile ↔ c = true ∧ x = tile := by
  cases c <;> simp [optTile]

theorem computeHs_mem (gc : GeoCoords) (latLon sw ne : ILatLon) (h : String)
    (nbrs : GeohashNeighbours) (x : String) :
    x ∈ computeHs gc latLon sw ne h nbrs ↔
      x = h ∨
      ((tileProximity gc latLon sw ne).t = true ∧ x = nbrs.n) ∨
      ((tileProximity gc latLon sw ne).t = true ∧ (tileProximity gc latLon sw ne).l = true ∧ x = nbrs.nw) ∨
      ((tileProximity gc latLon sw ne).l = true ∧ x = nbrs.w) ∨
      ((tileProximity gc latLon sw ne).l = true ∧ (tileProximity gc latLon sw ne).b = true ∧ x = nbrs.sw) ∨
      ((tileProximity gc latLon sw ne).b = true ∧ x = nbrs.s) ∨
      ((tileProximity gc latLon sw ne).b = true ∧ (tileProximity gc latLon sw ne).r = true ∧ x = nbrs.se) ∨
      ((tileProximity gc latLon sw ne).r = true ∧ x = nbrs.e) ∨
      ((tileProximity gc latLon sw ne).r = true ∧ (tileProximity gc latLon sw ne).t = true ∧ x = nbrs.ne) := by
  simp [computeHs, mem_optTile, Bool.and_eq_true, or_assoc, and_assoc]

/-! ## Claim C7 -/

/-- C7: the coverage set always contains the home tile; it contains the
north/west/south/east neighbour exactly when the node is within the 20-meter
threshold of that boundary in the local projected frame; and it contains a
diagonal neighbour exactly when the node is within the threshold of both
boundaries meeting at that corner.  The distinctness hypothesis states that
the nine geohash tile identifiers are pairwise different, which holds of
real geohash neighbourhoods. -/
theorem C7_coverage_boundary_and_corner_tiles (gc : GeoCoords) (latLon sw ne : ILatLon)
    (h : String) (nbrs : GeohashNeighbours)
    (hnd : [h, nbrs.n, nbrs.nw, nbrs.w, nbrs.sw, nbrs.s, nbrs.se, nbrs.e, nbrs.ne].Nodup) :
    h ∈ computeHs gc latLon sw ne h nbrs ∧
    (nbrs.n ∈ computeHs gc latLon sw ne h nbrs ↔ (tileProximity gc latLon sw ne).t = true) ∧
    (nbrs.w ∈ computeHs gc latLon sw ne h nbrs ↔ (tileProximity gc latLon sw ne).l = true) ∧
    (nbrs.s ∈ computeHs gc latLon sw ne h nbrs ↔ (tileProximity gc latLon sw ne).b = true) ∧
    (nbrs.e ∈ computeHs gc latLon sw ne h nbrs ↔ (tileProximity gc latLon sw ne).r = true) ∧
    (nbrs.nw ∈ computeHs gc latLon sw ne h nbrs ↔
      ((tileProximity gc latLon sw ne).t = true ∧ (tileProximity gc latLon sw ne).l = true)) ∧
    (nbrs.sw ∈ computeHs gc latLon sw ne h nbrs ↔
      ((tileProximity gc latLon sw ne).l = true ∧ (tileProximity gc latLon sw ne).b = true)) ∧
    (nbrs.se ∈ computeHs gc latLon sw ne h nbrs ↔
      ((tileProximity gc latLon sw ne).b = true ∧ (tileProximity gc latLon sw ne).r = true)) ∧
    (nbrs.ne ∈ computeHs gc latLon sw ne h nbrs ↔
      ((tileProximity gc latLon sw ne).r = true ∧ (tileProximity gc latLon sw ne).t = true)) := by
  simp only [List.nodup_cons, List.mem_cons, List.mem_singleton, List.not_mem_nil,
    or_false, not_or, List.nodup_nil, and_true] at hnd
  obtain ⟨⟨d01, d02, d03, d04, d05, d06, d07, d08⟩,
    ⟨d12, d13, d14, d15, d16, d17, d18⟩,
    ⟨d23, d24, d25, d26, d27, d28⟩,
    ⟨d34, d35, d36, d37, d38⟩,
    ⟨d45, d46, d47, d48⟩,
    ⟨d56, d57, d58⟩,
    ⟨d67, d68⟩, d78, -⟩ := hnd
  refine ⟨?_, ?_, ?_, ?_, ?_, ?_, ?_, ?_, ?_⟩
  · simp [computeHs_mem]
  · simp [computeHs_mem, Ne.symm d01, d12, d13, d14, d15, d16, d17, d18]
  · simp [computeHs_mem, Ne.symm d03, Ne.symm d13, Ne.symm d23, d34, d35, d36, d37, d38]
  · simp [computeHs_mem, Ne.symm d05, Ne.symm d15, Ne.symm d25, Ne.symm d35, Ne.symm d45,
      d56, d57, d58]
  · simp [computeHs_mem, Ne.symm d07, Ne.symm d17, Ne.symm d27, Ne.symm d37, Ne.symm d47,
      Ne.symm d57, Ne.symm d67, d78]
  · simp [computeHs_mem, Ne.symm d02, Ne.symm d12, d23, d24, d25, d26, d27, d28]
  · simp [computeHs_mem, Ne.symm d04, Ne.symm d14, Ne.symm d24, Ne.symm d34, d45, d46, d47, d48]
  · simp [computeHs_mem, Ne.symm d06, Ne.symm d16, Ne.symm d26, Ne.symm d36, Ne.symm d46,
      Ne.symm d56, d67, d68]
  · simp [computeHs_mem, Ne.symm d08, Ne.symm d18, Ne.symm d28, Ne.symm d38, Ne.symm d48,
      Ne.symm d58, Ne.symm d68, Ne.symm d78]

/-- C7 witness: the concrete constant projection with nine pairwise distinct
tile identifiers. -/
theorem C7_witness :
    h0 ∈ computeHs originGeo ⟨0, 0⟩ ⟨0, 0⟩ ⟨0, 0⟩ h0 nbrs0 ∧
    (nbrs0.n ∈ computeHs originGeo ⟨0, 0⟩ ⟨0, 0⟩ ⟨0, 0⟩ h0 nbrs0 ↔
      (tileProximity originGeo ⟨0, 0⟩ ⟨0, 0⟩ ⟨0, 0⟩).t = true) ∧
    (nbrs0.w ∈ computeHs originGeo ⟨0, 0⟩ ⟨0, 0⟩ ⟨0, 0⟩ h0 nbrs0 ↔
      (tileProximity originGeo ⟨0, 0⟩ ⟨0, 0⟩ ⟨0, 0⟩).l = true) ∧
    (nbrs0.s ∈ computeHs originGeo ⟨0, 0⟩ ⟨0, 0⟩ ⟨0, 0⟩ h0 nbrs0 ↔
      (tileProximity originGeo ⟨0, 0⟩ ⟨0, 0⟩ ⟨0, 0⟩).b = true) ∧
    (nbrs0.e ∈ computeHs originGeo ⟨0, 0⟩ ⟨0, 0⟩ ⟨0, 0⟩ h0 nbrs0 ↔
      (tileProximity originGeo ⟨0, 0⟩ ⟨0, 0⟩ ⟨0, 0⟩).r = true) ∧
    (nbrs0.nw ∈ computeHs originGeo ⟨0, 0⟩ ⟨0, 0⟩ ⟨0, 0⟩ h0 nbrs0 ↔
      ((tileProximity originGeo ⟨0, 0⟩ ⟨0, 0⟩ ⟨0, 0⟩).t = true ∧
        (tileProximity originGeo ⟨0, 0⟩ ⟨0, 0⟩ ⟨0, 0⟩).l = true)) ∧
    (nbrs0.sw ∈ computeHs originGeo ⟨0, 0⟩ ⟨0, 0⟩ ⟨0, 0⟩ h0 nbrs0 ↔
      ((tileProximity originGeo ⟨0, 0⟩ ⟨0, 0⟩ ⟨0, 0⟩).l = true ∧
        (tileProximity originGeo ⟨0, 0⟩ ⟨0, 0⟩ ⟨0, 0⟩).b = true)) ∧
    (nbrs0.se ∈ computeHs originGeo ⟨0, 0⟩ ⟨0, 0⟩ ⟨0, 0⟩ h0 nbrs0 ↔
      ((tileProximity originGeo ⟨0, 0⟩ ⟨0, 0⟩ ⟨0, 0⟩).b = true ∧
        (tileProximity originGeo ⟨0, 0⟩ ⟨0, 0⟩ ⟨0, 0⟩).r = true)) ∧
    (nbrs0.ne ∈ computeHs originGeo ⟨0, 0⟩ ⟨0, 0⟩ ⟨0, 0⟩ h0 nbrs0 ↔
      ((tileProximity originGeo ⟨0, 0⟩ ⟨0, 0⟩ ⟨0, 0⟩).r = true ∧
        (tileProximity originGeo ⟨0, 0⟩ ⟨0, 0⟩ ⟨0, 0⟩).t = true)) :=
  C7_coverage_boundary_and_corner_tiles originGeo ⟨0, 0⟩ ⟨0, 0⟩ ⟨0, 0⟩ h0 nbrs0 (by decide)

theorem lookupA_some_mem {β : Type} {l : List (String × β)} {k : String} {v : β}
    (h : lookupA l k = some v) : k ∈ l.map Prod.fst := by
  induction l with
  | nil => simp [lookupA] at h
  | cons p t ih =>
    by_cases hp : p.1 = k
    · simp [hp]
    · simp only [lookupA, if_neg hp] at h
      simp [ih h]

theorem worthyStep_preserves_other (tiles : String → Bool) (acc : Graph × List String)
    (k key : String) (hk : k ≠ key) :
    lookupA (worthyStep tiles acc k).1.nodes key = lookupA acc.1.nodes key ∧
    lookupA (worthyStep tiles acc k).1.unWorthyNodes key = lookupA acc.1.unWorthyNodes key := by
  unfold worthyStep
  dsimp only
  split
  · split
    · split
      · exact ⟨lookupA_assocSet_ne _ _ _ _ hk, lookupA_assocSet_ne _ _ _ _ hk⟩
      · exact ⟨rfl, rfl⟩
    · exact ⟨rfl, rfl⟩
  · exact ⟨rfl, rfl⟩

theorem foldl_worthyStep_preserves (tiles : String → Bool) (ks : List String)
    (key : String) (hk : key ∉ ks) :
    ∀ acc : Graph × List String,
      lookupA ((ks.foldl (worthyStep tiles) acc)).1.nodes key = lookupA acc.1.nodes key ∧
      lookupA ((ks.foldl (worthyStep tiles) acc)).1.unWorthyNodes key
        = lookupA acc.1.unWorthyNodes key := by
  induction ks with
  | nil => intro acc; exact ⟨rfl, rfl⟩
  | cons a ks ih =>
    intro acc
    have hka : a ≠ key := by
      intro hEq
      exact hk (hEq ▸ List.mem_cons_self a ks)
    have hkks : key ∉ ks := fun hmem => hk (List.mem_cons_of_mem a hmem)
    obtain ⟨e1, e2⟩ := worthyStep_preserves_other tiles acc a key hka
    obtain ⟨f1, f2⟩ := ih hkks (worthyStep tiles acc a)
    rw [List.foldl_cons]
    exact ⟨f1.trans e1, f2.trans e2⟩

theorem worthyStep_at_key (tiles : String → Bool) (acc : Graph × List String)
    (key : String) (node : Node)
    (htr : lookupA acc.1.unWorthyNodes key = some true)
    (hn : acc.1.getNode key = some node) :
    lookupA (worthyStep tiles acc key).1.nodes key =
      some (if node.hs.all (fun h => tiles h) then node.makeWorthy else node) := by
  unfold worthyStep
  dsimp only
  rw [htr]
  dsimp only
  rw [hn]
  dsimp only
  split
  · simp [lookupA_assocSet_self]
  · unfold Graph.getNode at hn
    simp [hn]

theorem makeNodesWorthy_getNode (g : Graph) (tiles : String → Bool) (key : String)
    (node : Node)
    (hnd : (g.unWorthyNodes.map Prod.fst).Nodup)
    (htr : lookupA g.unWorthyNodes key = some true)
    (hn : g.getNode key = some node) :
    (g.makeNodesWorthy tiles).getNode key =
      some (if node.hs.all (fun h => tiles h) then node.makeWorthy else node) := by
  have hmem : key ∈ g.unWorthyNodes.map Prod.fst := lookupA_some_mem htr
  obtain ⟨s, t, hsplit⟩ := List.mem_iff_append.mp hmem
  have hnd' : (s ++ key :: t).Nodup := hsplit ▸ hnd
  rw [List.nodup_append] at hnd'
  obtain ⟨-, hkt, hdisj⟩ := hnd'
  have hks : key ∉ s := fun hs' => hdisj hs' (List.mem_cons_self _ _)
  have hkt' : key ∉ t := (List.nodup_cons.mp hkt).1
  obtain ⟨p1, p2⟩ := foldl_worthyStep_preserves tiles s key hks (g, [])
  have htr1 : lookupA ((s.foldl (worthyStep tiles) (g, []))).1.unWorthyNodes key = some true :=
    p2.trans htr
  have hn1 : ((s.foldl (worthyStep tiles) (g, []))).1.getNode key = some node := by
    unfold Graph.getNode at hn ⊢
    exact p1.trans hn
  have hstep := worthyStep_at_key tiles (s.foldl (worthyStep tiles) (g, [])) key node htr1 hn1
  obtain ⟨q1, -⟩ := foldl_worthyStep_preserves tiles t key hkt'
    (worthyStep tiles (s.foldl (worthyStep tiles) (g, [])) key)
  unfold Graph.makeNodesWorthy
  simp only [Graph.getNode, hsplit, List.foldl_append, List.foldl_cons]
  exact q1.trans hstep

theorem edgeMatches_self (e : GEdge) : edgeMatches e e.v e.w e.name = true := by
  simp [edgeMatches]

theorem foldl_removeMatches (L : List GEdge) (es : List GEdge) :
    L.foldl removeMatches es
      = es.filter (fun e => !(L.any (fun o => edgeMatches e o.v o.w o.name))) := by
  induction L generalizing es with
  | nil => simp
  | cons o L ih =>
    rw [List.foldl_cons, ih]
    unfold removeMatches
    rw [List.filter_filter]
    apply List.filter_congr
    intro e _
    simp only [List.any_cons, Bool.not_or]
    rw [Bool.and_comm]

theorem foldl_removeMatches_outEdges (g : Graph) (k : String) :
    (g.outEdges k).foldl removeMatches g.edges
      = g.edges.filter (fun e => !(e.v == k)) := by
  rw [foldl_removeMatches]
  apply List.filter_congr
  intro e he
  cases hv : (e.v == k) with
  | true =>
    have hany : (g.outEdges k).any (fun o => edgeMatches e o.v o.w o.name) = true := by
      refine List.any_eq_true.mpr ⟨e, ?_, edgeMatches_self e⟩
      unfold Graph.outEdges
      exact List.mem_filter.mpr ⟨he, hv⟩
    rw [hany]
  | false =>
    have hany : (g.outEdges k).any (fun o => edgeMatches e o.v o.w o.name) = false := by
      rw [List.any_eq_false]
      intro o ho
      have hov : (o.v == k) = true := (List.mem_filter.mp ho).2
      intro hmatch
      have hev : e.v = o.v := by
        have := (Bool.and_eq_true _ _).mp ((Bool.and_eq_true _ _).mp hmatch).1
        exact eq_of_beq this.1
      rw [hev, hov] at hv
      simp at hv
    rw [hany]

theorem filter_map_preserving (f : GEdge → GEdge) (p : GEdge → Bool)
    (h1 : ∀ e, p (f e) = p e) (h2 : ∀ e, p e = true → f e = e) (es : List GEdge) :
    (es.map f).filter p = es.filter p := by
  induction es with
  | nil => rfl
  | cons a t ih =>
    simp only [List.map_cons, List.filter_cons, h1 a]
    cases hp : p a with
    | false => exact ih
    | true => rw [h2 a hp, ih]

theorem filter_setEdgeL (es : List GEdge) (k w name : String) (data : IEdgeData) :
    (setEdgeL es k w name data).filter (fun e => !(e.v == k))
      = es.filter (fun e => !(e.v == k)) := by
  unfold setEdgeL
  split
  · apply filter_map_preserving
    · intro e
      split <;> rfl
    · intro e hp
      have hv : (e.v == k) = false := by
        cases h : (e.v == k) with
        | false => rfl
        | true => rw [h] at hp; exact absurd hp (by simp)
      have : edgeMatches e k w name = false := by
        unfold edgeMatches
        rw [hv, Bool.false_and, Bool.false_and]
      rw [this]
      simp
  · rw [List.filter_append]
    have : (GEdge.mk k w name data).v == k := by simp
    simp [this]

theorem filter_setFold (L : List IEdge) (k : String) (es : List GEdge) :
    (L.foldl (fun es e => setEdgeL es k e.toKey (edgeName k e.toKey e.data) e.data) es).filter
        (fun e => !(e.v == k))
      = es.filter (fun e => !(e.v == k)) := by
  induction L generalizing es with
  | nil => rfl
  | cons a L ih => rw [List.foldl_cons, ih, filter_setEdgeL]

theorem addEdgesToNode_edges (g : Graph) (node : Node) (L : List IEdge) :
    (g.addEdgesToNode node L).edges =
      L.foldl (fun es e => setEdgeL es node.key e.toKey (edgeName node.key e.toKey e.data) e.data)
        (g.edges.filter (fun e => !(e.v == node.key))) := by
  unfold Graph.addEdgesToNode
  dsimp only
  rw [foldl_removeMatches_outEdges]

theorem computeMainEdges_congr (g g' : Graph) (node : Node)
    (hc : g.edgeCalculator = g'.edgeCalculator) (hi : g.nodeIndex = g'.nodeIndex)
    (hn : g.nodes = g'.nodes) :
    g.computeMainEdges node = g'.computeMainEdges node := by
  unfold Graph.computeMainEdges Graph.searchNodes
  rw [hc, hi, hn]

theorem getEdges_congr (g g' : Graph) (node : Node) (h : g.edges = g'.edges) :
    g.getEdges node = g'.getEdges node := by
  unfold Graph.getEdges Graph.outEdges
  rw [h]

theorem cacheNode_fields (g : Graph) (node : Node) :
    (g.cacheNode node).sequences = g.sequences ∧
    (g.cacheNode node).sequenceHashes = g.sequenceHashes ∧
    (g.cacheNode node).nodes = g.nodes ∧
    (g.cacheNode node).nodeIndex = g.nodeIndex ∧
    (g.cacheNode node).unWorthyNodes = g.unWorthyNodes ∧
    (g.cacheNode node).edgeCalculator = g.edgeCalculator ∧
    (g.cacheNode node).geoCoords = g.geoCoords ∧
    (g.cacheNode node).geohashLib = g.geohashLib ∧
    (g.cacheNode node).computeRotationFn = g.computeRotationFn := by
  by_cases hw : node.worthy = true <;>
    simp [Graph.cacheNode, Graph.computeEdgesB, Graph.addEdgesToNode, hw]

theorem cacheNode_edges_eq (g : Graph) (node : Node) (hw : node.worthy = true) :
    (g.cacheNode node).edges = (g.addEdgesToNode node (g.computeMainEdges node)).edges := by
  simp [Graph.cacheNode, Graph.computeEdgesB, hw]

theorem cacheNode_cached_eq (g : Graph) (node : Node) (hw : node.worthy = true) :
    (g.cacheNode node).cachedEdges =
      assocSet g.cachedEdges node.key
        ((g.addEdgesToNode node (g.computeMainEdges node)).getEdges node) := by
  simp [Graph.cacheNode, Graph.computeEdgesB, Graph.addEdgesToNode, hw]

/-! ## Claim C3 -/

/-- C3: running `cacheNode` a second time on the same worthy node, with no
graph mutation in between, leaves the graph state exactly as after the first
run: the cached outgoing edge set is identical both times and the second run
replaces the first's edges wholesale (no accumulation), so the whole state is
a fixed point. -/
theorem C3_cacheNode_idempotent (g : Graph) (node : Node) (hw : node.worthy = true) :
    (g.cacheNode node).cacheNode node = g.cacheNode node ∧
    ((g.cacheNode node).cacheNode node).getEdges node = (g.cacheNode node).getEdges node ∧
    lookupA ((g.cacheNode node).cacheNode node).cachedEdges node.key
      = lookupA (g.cacheNode node).cachedEdges node.key := by
  obtain ⟨f1, f2, f3, f4, f5, f6, f7, f8, f9⟩ := cacheNode_fields g node
  have hL1 : (g.cacheNode node).computeMainEdges node = g.computeMainEdges node :=
    computeMainEdges_congr _ _ node f6 f4 f3
  have hfilter : (g.cacheNode node).edges.filter (fun e => !(e.v == node.key))
      = g.edges.filter (fun e => !(e.v == node.key)) := by
    rw [cacheNode_edges_eq g node hw, addEdgesToNode_edges, filter_setFold,
      List.filter_filter]
    apply List.filter_congr
    intro e _
    exact Bool.and_self _
  have hE2 : ((g.cacheNode node).addEdgesToNode node
        ((g.cacheNode node).computeMainEdges node)).edges
      = (g.addEdgesToNode node (g.computeMainEdges node)).edges := by
    rw [addEdgesToNode_edges, addEdgesToNode_edges, hL1, hfilter]
  have hV2 : ((g.cacheNode node).addEdgesToNode node
        ((g.cacheNode node).computeMainEdges node)).getEdges node
      = (g.addEdgesToNode node (g.computeMainEdges node)).getEdges node :=
    getEdges_congr _ _ node hE2
  obtain ⟨s1, s2, s3, s4, s5, s6, s7, s8, s9⟩ := cacheNode_fields (g.cacheNode node) node
  have hmain : (g.cacheNode node).cacheNode node = g.cacheNode node := by
    apply Graph.ext
    · exact s1
    · exact s2
    · exact s3
    · rw [cacheNode_edges_eq (g.cacheNode node) node hw, hE2,
        ← cacheNode_edges_eq g node hw]
    · exact s4
    · exact s5
    · rw [cacheNode_cached_eq (g.cacheNode node) node hw, hV2,
        cacheNode_cached_eq g node hw, assocSet_assocSet_self]
    · exact s6
    · exact s7
    · exact s8
    · exact s9
  exact ⟨hmain, by rw [hmain], by rw [hmain]⟩

/-- C3 witness: double caching of the concrete worthy node on the fresh
graph. -/
theorem C3_witness :
    (emptyGraph.cacheNode worthyNodeA).cacheNode worthyNodeA
        = emptyGraph.cacheNode worthyNodeA ∧
    ((emptyGraph.cacheNode worthyNodeA).cacheNode worthyNodeA).getEdges worthyNodeA
        = (emptyGraph.cacheNode worthyNodeA).getEdges worthyNodeA ∧
    lookupA ((emptyGraph.cacheNode worthyNodeA).cacheNode worthyNodeA).cachedEdges
        worthyNodeA.key
      = lookupA (emptyGraph.cacheNode worthyNodeA).cachedEdges worthyNodeA.key :=
  C3_cacheNode_idempotent emptyGraph worthyNodeA rfl

/-! ## Claim C1 -/

/-- C1: after `addNodesFromAPI`, a node tracked as unworthy at the end of the
ingestion phase is promoted to worthy if and only if every geohash tile of
its coverage set is marked loaded in the given tile set; partial coverage
never promotes.  The key-uniqueness hypothesis reflects that the tracking
dictionary is a JavaScript object. -/
theorem C1_promotion_iff_full_coverage (g : Graph) (d : IAPINavIm)
    (tiles : String → Bool) (key : String) (node : Node)
    (hnd : ((g.ingestNodes d).unWorthyNodes.map Prod.fst).Nodup)
    (htr : lookupA (g.ingestNodes d).unWorthyNodes key = some true)
    (hn : (g.ingestNodes d).getNode key = some node)
    (hw : node.worthy = false) :
    ∃ n', (g.addNodesFromAPI (some d) tiles).getNode key = some n' ∧
      (n'.worthy = true ↔ node.hs.all (fun h => tiles h) = true) := by
  have hmain := makeNodesWorthy_getNode (g.ingestNodes d) tiles key node hnd htr hn
  refine ⟨if node.hs.all (fun h => tiles h) then node.makeWorthy else node, hmain, ?_⟩
  by_cases hall : node.hs.all (fun h => tiles h) = true
  · simp [hall, Node.makeWorthy]
  · simp only [Bool.not_eq_true] at hall
    simp [hall, hw]

/-- C1 witness: ingesting the one-image payload into the fresh graph with
every tile loaded promotes the node "a". -/
theorem C1_witness :
    ∃ n', (emptyGraph.addNodesFromAPI (some payloadA) (fun _ => true)).getNode "a" = some n' ∧
      (n'.worthy = true ↔ ingestedA.hs.all (fun h => (fun _ => true) h) = true) :=
  C1_promotion_iff_full_coverage emptyGraph payloadA (fun _ => true) "a" ingestedA
    (by norm_num [Graph.ingestNodes, seqStep, imStep, computeHs, tileProximity, optTile,
      Graph.insertNodes, Graph.insertNode, Graph.getNode, lookupA, assocSet, findSequenceIn,
      Node.key, emptyGraph, payloadA, plainIm, originGeo, constHashLib, defaultAlt])
    (by norm_num [Graph.ingestNodes, seqStep, imStep, computeHs, tileProximity, optTile,
      Graph.insertNodes, Graph.insertNode, Graph.getNode, lookupA, assocSet, findSequenceIn,
      Node.key, emptyGraph, payloadA, plainIm, originGeo, constHashLib, defaultAlt])
    (by norm_num [Graph.ingestNodes, seqStep, imStep, computeHs, tileProximity, optTile,
      Graph.insertNodes, Graph.insertNode, Graph.getNode, lookupA, assocSet, findSequenceIn,
      Node.key, emptyGraph, payloadA, plainIm, originGeo, constHashLib, defaultAlt, ingestedA])
    rfl

/-! ## Claim C10 -/

/-- C10: calling `addNodesFromAPI` with an `undefined` payload returns
immediately and leaves the entire graph state — nodes, sequences, spatial
index and unworthy-node tracking — unchanged. -/
theorem C10_undefined_payload_is_noop (g : Graph) (tiles : String → Bool) :
    g.addNodesFromAPI none tiles = g ∧
    (g.addNodesFromAPI none tiles).nodes = g.nodes ∧
    (g.addNodesFromAPI none tiles).sequences = g.sequences ∧
    (g.addNodesFromAPI none tiles).nodeIndex = g.nodeIndex ∧
    (g.addNodesFromAPI none tiles).unWorthyNodes = g.unWorthyNodes :=
  ⟨rfl, rfl, rfl, rfl, rfl⟩

/-! ## Claim C2 -/

/-- C2: inserting a node whose key is already present in the graph is a
complete no-op: node count, spatial index and the first-inserted node
instance for that key are all unchanged. -/
theorem C2_insert_existing_key_is_noop (g : Graph) (node m : Node)
    (h : g.getNode node.key = some m) :
    g.insertNode node = g ∧
    (g.insertNode node).nodes.length = g.nodes.length ∧
    (g.insertNode node).nodeIndex = g.nodeIndex ∧
    (g.insertNode node).getNode node.key = some m := by
  have hg : g.insertNode node = g := by
    unfold Graph.insertNode
    rw [h]
  exact ⟨hg, by rw [hg], by rw [hg], by rw [hg, h]⟩

/-- C2 witness: duplicate insertion of the concrete node "a". -/
theorem C2_witness :
    graphWithA.insertNode (plainNode "a") = graphWithA ∧
    (graphWithA.insertNode (plainNode "a")).nodes.length = graphWithA.nodes.length ∧
    (graphWithA.insertNode (plainNode "a")).nodeIndex = graphWithA.nodeIndex ∧
    (graphWithA.insertNode (plainNode "a")).getNode (plainNode "a").key = some (plainNode "a") :=
  C2_insert_existing_key_is_noop graphWithA (plainNode "a") (plainNode "a") rfl

/-! ## Claim C9 -/

/-- C9: the claim says `wrap` raises InvalidArgument whenever `max <= min`,
and the source's own error message demands `max` larger than `min`; but the
guard tests only `max < min`, so at `max = min = 0` with `value = 1` no
error is raised and the loop never terminates (`none` for every fuel). -/
theorem C9_equal_bounds_not_rejected_and_loop_diverges :
    ∀ fuel : ℕ, wrap fuel 1 0 0 = Except.ok none := by
  have hgo : ∀ f : ℕ, wrapGo f 1 0 0 = none := by
    intro f
    induction f with
    | zero => rfl
    | succ f ih =>
      rw [wrapGo_succ]
      norm_num
      exact ih
  intro fuel
  simp [wrap, hgo]

/-! ## Claim C8 -/

/-- C8 counterexample: with `min = 0 < 5 = max` and `value = 5` the loop
returns `5` itself, which is not in the half-open interval `[0, 5)`. -/
theorem C8_counterexample_wrap_attains_max :
    (0 : ℚ) < 5 ∧ wrap 1 5 0 5 = Except.ok (some 5) ∧ ¬((5 : ℚ) < 5) := by
  refine ⟨by norm_num, ?_, by norm_num⟩
  have h1 : ¬((5 : ℚ) > 5 ∨ (5 : ℚ) < 0) := by norm_num
  have h2 : ¬((5 : ℚ) < 0) := by norm_num
  rw [wrap, if_neg h2, wrapGo_succ, if_neg h1]

/-- C8 (amended): for `max > min` the loop terminates and returns a value in
the CLOSED interval `[min, max]` (the bound `max` itself is attained, so the
half-open interval of the claim is off by the right endpoint). -/
theorem C8_wrap_lands_in_closed_interval (value mn mx : ℚ) (h : mn < mx) :
    ∃ (fuel : ℕ) (r : ℚ), wrap fuel value mn mx = Except.ok (some r) ∧ mn ≤ r ∧ r ≤ mx := by
  have hi : (0 : ℚ) < mx - mn := by linarith
  obtain ⟨n1, hn1⟩ := exists_nat_gt ((value - mx) / (mx - mn))
  obtain ⟨n2, hn2⟩ := exists_nat_gt ((mn - value) / (mx - mn))
  have hm1 : ((n1 : ℚ)) ≤ ((max n1 n2 : ℕ) : ℚ) := by
    exact_mod_cast Nat.le_max_left n1 n2
  have hm2 : ((n2 : ℚ)) ≤ ((max n1 n2 : ℕ) : ℚ) := by
    exact_mod_cast Nat.le_max_right n1 n2
  have h1 : value ≤ mx + ((max n1 n2 : ℕ) : ℚ) * (mx - mn) := by
    have := (div_lt_iff₀ hi).mp hn1
    nlinarith
  have h2 : mn - ((max n1 n2 : ℕ) : ℚ) * (mx - mn) ≤ value := by
    have := (div_lt_iff₀ hi).mp hn2
    nlinarith
  obtain ⟨r, hr, hr1, hr2⟩ := wrapGo_in_range mn mx h (max n1 n2) value h2 h1
  refine ⟨max n1 n2 + 1, r, ?_, hr1, hr2⟩
  have hnl : ¬(mx < mn) := by linarith
  rw [wrap, if_neg hnl, hr]

/-- C8 witness: the amended theorem applied at `value = 7`, `min = 0`,
`max = 5`. -/
theorem C8_witness :
    ∃ (fuel : ℕ) (r : ℚ), wrap fuel 7 0 5 = Except.ok (some r) ∧ (0 : ℚ) ≤ r ∧ r ≤ 5 :=
  C8_wrap_lands_in_closed_interval 7 0 5 (by norm_num)

/-! ## Claim C4 -/

/-- C4: `fetch(key)` raises a synchronous precondition error exactly when the
key is already fetching or the node already exists; a successful call marks
the key fetching, so a second call before completion raises. -/
theorem C4_fetch_precondition_errors (g : NewGraph) (key : String) :
    ((g.fetch key).isOk = false ↔ (g.fetching key || g.hasNode key) = true) ∧
    ∀ g', g.fetch key = Except.ok g' →
      g'.fetching key = true ∧ (g'.fetch key).isOk = false := by
  constructor
  · by_cases hf : g.fetching key
    · simp [NewGraph.fetch, hf, Except.isOk, Except.toBool]
    · by_cases hn : g.hasNode key
      · simp [NewGraph.fetch, hf, hn, Except.isOk, Except.toBool]
      · simp [NewGraph.fetch, hf, hn, Except.isOk, Except.toBool]
  · intro g' hok
    by_cases hf : g.fetching key
    · simp [NewGraph.fetch, hf] at hok
    · by_cases hn : g.hasNode key
      · simp [NewGraph.fetch, hf, hn] at hok
      · simp only [NewGraph.fetch, hf, hn, if_false, Bool.false_eq_true, if_neg] at hok
        have hmark : g'.fetching key = true := by
          rw [← Except.ok.injEq _ _ |>.mp hok]
          simp [NewGraph.fetching]
        refine ⟨hmark, ?_⟩
        simp [NewGraph.fetch, hmark, Except.isOk, Except.toBool]

/-- C4 witness: on the fresh instance `fetch("a")` succeeds, marks "a"
fetching, and a second `fetch("a")` fails. -/
theorem C4_witness : fetchedA.fetching "a" = true ∧ (fetchedA.fetch "a").isOk = false :=
  (C4_fetch_precondition_errors emptyNewGraph "a").2 fetchedA rfl

/-! ## Claim C5 -/

/-- C5 evaluates the code at the failing input: after a successful
`fetch("a")`, a rejection of the upstream `imageByKeyFull` request leaves the
fetching state for "a" SET (the source registers no rejection handler, so the
state is never cleared and a retry stays impossible) and surfaces nothing to
the caller — contradicting the claim that fetching is cleared and the
failure is surfaced. -/
theorem C5_rejection_keeps_fetching_and_surfaces_nothing :
    emptyNewGraph.fetch "a" = Except.ok fetchedA ∧
    (fetchedA.fetchRejected "a").1.fetching "a" = true ∧
    (fetchedA.fetchRejected "a").2 = [] :=
  ⟨rfl, rfl, rfl⟩

/-! ## Claim C6 -/

/-- C6 counterexample: a concrete ingestion that adds one node emits zero
change notifications, not exactly one. -/
theorem C6_counterexample_ingest_adds_node_without_notification :
    (emptyGraph.addNodesFromAPIWithEvents (some payloadA) (fun _ => true)).1.nodes.length = 1 ∧
    emptyGraph.nodes.length = 0 ∧
    (emptyGraph.addNodesFromAPIWithEvents (some payloadA) (fun _ => true)).2.length = 0 := by
  refine ⟨?_, rfl, rfl⟩
  norm_num [Graph.addNodesFromAPIWithEvents, Graph.addNodesFromAPI, Graph.ingestNodes,
    Graph.makeNodesWorthy, worthyStep, seqStep, imStep, computeHs, optTile,
    Graph.insertNodes, Graph.insertNode, Graph.getNode, lookupA, assocSet, removeA,
    findSequenceIn, Node.key, Node.makeWorthy,
    emptyGraph, payloadA, plainIm, originGeo, constHashLib, defaultAlt]

/-- C6 (amended): tile ingestion (`Graph.addNodesFromAPI`) emits no change
notification at all, whatever it adds or promotes — the `Graph` class has no
change stream; the change stream belongs to `NewGraph`, whose fetch
completion emits exactly one notification carrying the updated graph. -/
theorem C6_ingestion_emits_nothing (g : Graph) (data : Option IAPINavIm)
    (tiles : String → Bool) :
    (g.addNodesFromAPIWithEvents data tiles).2 = [] ∧
    ∀ (ng : NewGraph) (key : String) (fn : NodeData),
      (ng.fetchFulfilled key fn).2 = [(ng.fetchFulfilled key fn).1] :=
  ⟨rfl, fun _ _ _ => rfl⟩

end Mapillary
